import Mathlib

/-!
Shallow embedding of the download-job core of the hackathon-onsite repository.

Server side (src/src/index.ts, duplicated in src/src/services/s3.ts and
src/src/utils/helpers.ts):
  * `sanitizeS3Key`, `checkS3Availability` — the Availability Checker in its
    two modes (mock when no bucket is configured, S3-backed otherwise);
  * `getRandomDelay` — the Delay Simulator;
  * the `/v1/download/check` and `/v1/download/start` route handlers.

Client side (src/frontend/src/App.jsx): the per-item resilience state
machine — `handleStart`, `pollUntilAvailable`, `handleRetry` and the
button-disabling gates — modelled as an explicit transition system over a
`ClientState` that records the tracked items, the in-flight `start`
requests and the active `setInterval` polling loops.

Sources of nondeterminism (Math.random, Date.now, S3 responses, timer
scheduling) are passed as explicit parameters; JS promises resolving are
events consuming a uniquely-tokened in-flight record.
-/

namespace Hackathon

/-- Server configuration relevant to the core (from the env schema in
src/src/index.ts): `S3_BUCKET_NAME` (empty string means mock mode),
`DOWNLOAD_DELAY_ENABLED`, `DOWNLOAD_DELAY_MIN_MS`, `DOWNLOAD_DELAY_MAX_MS`. -/
structure Env where
  bucketName : String
  delayEnabled : Bool
  delayMinMs : Nat
  delayMaxMs : Nat
  deriving Repr, DecidableEq

/-- `sanitizeS3Key` from src/src/index.ts: the id is floored and taken in
absolute value, then embedded in a fixed template. File ids are validated
integers, so we embed them as `Int` and `Math.floor` is the identity. -/
def sanitizeS3Key (fileId : Int) : String :=
  "downloads/" ++ toString fileId.natAbs ++ ".zip"

/-- Result shape of `checkS3Availability` (src/src/index.ts):
`{ available, s3Key, size }` with nullable key and size. -/
structure AvailabilityResult where
  available : Bool
  s3Key : Option String
  size : Option Nat
  deriving Repr, DecidableEq

/-- Outcome of the `HeadObject` call issued in backed mode: either the S3
client resolves with a response (whose `ContentLength` field is optional in
the SDK), or it throws (NotFound, AccessDenied, network, ...) — the handler
catches every throw uniformly. -/
inductive HeadOutcome where
  | success (contentLength : Option Nat)
  | thrown
  deriving Repr, DecidableEq

/-- `checkS3Availability` from src/src/index.ts.  `head` is the outcome of
the S3 `HeadObject` call (only consulted in backed mode); `mockRand` is the
value of `Math.floor(Math.random() * 10000000)` drawn in mock mode. -/
def checkS3Availability (env : Env) (head : HeadOutcome) (mockRand : Nat)
    (fileId : Int) : AvailabilityResult :=
  let s3Key := sanitizeS3Key fileId
  if env.bucketName = "" then
    -- mock mode: available iff fileId % 7 == 0, random size when available
    let available := fileId % 7 = 0
    { available := available
      s3Key := if available then some s3Key else none
      size := if available then some (mockRand + 1000) else none }
  else
    match head with
    | .success contentLength =>
        { available := true, s3Key := some s3Key, size := contentLength }
    | .thrown =>
        { available := false, s3Key := none, size := none }

/-- `getRandomDelay` from src/src/index.ts (identical copy in
src/src/utils/helpers.ts).  `r` is the value drawn from `Math.random()`,
a real number in `[0, 1)`, embedded as a rational. Disabled ⇒ 0; enabled ⇒
`Math.floor(r * (max - min + 1)) + min`. -/
def getRandomDelay (env : Env) (r : ℚ) : Int :=
  if !env.delayEnabled then 0
  else ⌊r * ((env.delayMaxMs : ℚ) - (env.delayMinMs : ℚ) + 1)⌋ + env.delayMinMs

/-- Status field of a `/v1/download/start` response. -/
inductive StartStatus where
  | completed
  | failed
  deriving Repr, DecidableEq

/-- Response body of `/v1/download/start` (DownloadStartResponseSchema). -/
structure StartResult where
  file_id : Int
  status : StartStatus
  downloadUrl : Option String
  size : Option Nat
  processingTimeMs : Int
  message : String
  deriving Repr, DecidableEq

/-- JS `(ms / 1000).toFixed(1)` for a non-negative millisecond count:
seconds with one decimal digit, rounding half away from zero. -/
def fmtSeconds1 (ms : Int) : String :=
  let tenths : Nat := (ms.toNat + 50) / 100
  toString (tenths / 10) ++ "." ++ toString (tenths % 10)

/-- The response constructed by the `/v1/download/start` handler once the
availability result and the elapsed time are known (src/src/index.ts,
lines 754–783).  `token` is the `crypto.randomUUID()` draw embedded in the
presigned URL. -/
def downloadStartResult (fileId : Int) (s3Result : AvailabilityResult)
    (token : String) (processingTimeMs : Int) : StartResult :=
  if s3Result.available then
    { file_id := fileId
      status := .completed
      downloadUrl := some ("https://storage.example.com/" ++
        (s3Result.s3Key.getD "") ++ "?token=" ++ token)
      size := s3Result.size
      processingTimeMs := processingTimeMs
      message := "Download ready after " ++ fmtSeconds1 processingTimeMs ++
        " seconds" }
  else
    { file_id := fileId
      status := .failed
      downloadUrl := none
      size := none
      processingTimeMs := processingTimeMs
      message := "File not found after " ++ fmtSeconds1 processingTimeMs ++
        " seconds of processing" }

/-- Response body of `/v1/download/check` (DownloadCheckResponseSchema):
the availability result with the echoed `file_id` spread in front. -/
structure CheckResponse where
  file_id : Int
  available : Bool
  s3Key : Option String
  size : Option Nat
  deriving Repr, DecidableEq

/-- The `/v1/download/check` handler (src/src/index.ts, lines 650–669).
`sentryTest` is the optional `sentry_test` query parameter; the handler
throws exactly when it equals the string "true", and otherwise responds
with `{ file_id, ...s3Result }`.  A thrown error is embedded as
`Except.error` carrying the JS error message. -/
def downloadCheck (env : Env) (head : HeadOutcome) (mockRand : Nat)
    (fileId : Int) (sentryTest : Option String) :
    Except String CheckResponse :=
  if sentryTest = some "true" then
    .error ("Sentry test error triggered for file_id=" ++ toString fileId ++
      " - This should appear in Sentry!")
  else
    let s3Result := checkS3Availability env head mockRand fileId
    .ok { file_id := fileId
          available := s3Result.available
          s3Key := s3Result.s3Key
          size := s3Result.size }

/-- One full run of the `/v1/download/start` handler on the normal
(exception-free) path.  `t0` is `Date.now()` at entry and `tEnd` is
`Date.now()` after the availability check; `processingTimeMs = tEnd - t0`
exactly as in the code.  The relationship between `tEnd`, `t0` and the
drawn delay (the `sleep` contract) is supplied as hypotheses in theorems. -/
def downloadStartRun (env : Env) (fileId : Int) (r : ℚ) (head : HeadOutcome)
    (mockRand : Nat) (token : String) (t0 tEnd : Int) : StartResult :=
  let _delayMs := getRandomDelay env r
  let s3Result := checkS3Availability env head mockRand fileId
  downloadStartResult fileId s3Result token (tEnd - t0)

/-!
Effect trace of the `/v1/download/start` handler.  The handler's only
writes to shared server state are the `downloadActiveCount` gauge and the
Prometheus metric objects; we record every such write as an event, in the
order the code performs them, and let an unexpected exception interrupt
the `try` block at any of its awaited/throwing steps.
-/

/-- A point inside the `try` block of the start handler at which an
unexpected exception may be thrown (the delay draw, the `sleep`, or the
availability check). -/
inductive FailPoint where
  | atDelay
  | atSleep
  | atCheck
  deriving Repr, DecidableEq

/-- A write to shared server state performed by the start handler:
the active-download gauge, or one of its metric observations. -/
inductive MetricEvent where
  | gaugeInc
  | gaugeDec
  | observeSimulatedDelay (seconds : ℚ)
  | observeProcessingDuration (fileAvailable : Bool) (seconds : ℚ)
  | incDownloadRequests (endpoint status fileAvailable : String)
  | observeFileSize (status : String) (size : Nat)
  deriving Repr, DecidableEq

/-- Outcome of one start-handler execution: a JSON response, or an
exception escaping to the framework's error handler. -/
inductive StartOutcome where
  | ok (res : StartResult)
  | exn
  deriving Repr, DecidableEq

/-- The `downloadFileSizeBytes.observe` call guarded by `if (s3Result.size)`
in JS: null and 0 are both falsy, so the observation happens only for a
present, non-zero size. -/
def fileSizeEvents : Option Nat → List MetricEvent
  | some n => if n ≠ 0 then [MetricEvent.observeFileSize "completed" n]
              else []
  | none => []

/-- The `try` block of the start handler (src/src/index.ts, lines 724–783):
its outcome and the shared-state writes it performs, in code order.
`failAt = some p` models an unexpected exception thrown at step `p`;
`failAt = none` is the normal path. -/
def downloadStartTryBlock (env : Env) (fileId : Int) (r : ℚ)
    (head : HeadOutcome) (mockRand : Nat) (token : String) (t0 tEnd : Int)
    (failAt : Option FailPoint) : StartOutcome × List MetricEvent :=
  match failAt with
  | some .atDelay => (.exn, [])
  | some .atSleep =>
      (.exn, [.observeSimulatedDelay (getRandomDelay env r / 1000)])
  | some .atCheck =>
      (.exn, [.observeSimulatedDelay (getRandomDelay env r / 1000)])
  | none =>
      let s3Result := checkS3Availability env head mockRand fileId
      let processingTimeMs := tEnd - t0
      let res := downloadStartResult fileId s3Result token processingTimeMs
      let evs :=
        [MetricEvent.observeSimulatedDelay (getRandomDelay env r / 1000),
         MetricEvent.observeProcessingDuration s3Result.available
           (processingTimeMs / 1000)]
      if s3Result.available then
        (.ok res,
         evs ++ [MetricEvent.incDownloadRequests "start" "completed" "true"]
             ++ fileSizeEvents s3Result.size)
      else
        (.ok res,
         evs ++ [MetricEvent.incDownloadRequests "start" "failed" "false"])

/-- The whole start handler: `downloadActiveCount.inc()` on entry, the
`try` block, and `downloadActiveCount.dec()` in the `finally` clause —
performed on every exit path, exception included. -/
def downloadStartExec (env : Env) (fileId : Int) (r : ℚ)
    (head : HeadOutcome) (mockRand : Nat) (token : String) (t0 tEnd : Int)
    (failAt : Option FailPoint) : StartOutcome × List MetricEvent :=
  let body := downloadStartTryBlock env fileId r head mockRand token t0 tEnd
    failAt
  (body.1, MetricEvent.gaugeInc :: body.2 ++ [MetricEvent.gaugeDec])

/-- Shared server state touched by the start handler: the active-download
gauge, a ledger of metric observations, and everything else (`other`),
which the handler never writes. -/
structure ServerState where
  gauge : Int
  metricLog : List MetricEvent
  other : Int
  deriving Repr, DecidableEq

/-- Effect of one shared-state write on the server state. -/
def applyEvent (st : ServerState) : MetricEvent → ServerState
  | .gaugeInc => { st with gauge := st.gauge + 1 }
  | .gaugeDec => { st with gauge := st.gauge - 1 }
  | e => { st with metricLog := st.metricLog ++ [e] }

/-- Effect of a sequence of shared-state writes. -/
def applyEvents (st : ServerState) (evs : List MetricEvent) : ServerState :=
  evs.foldl applyEvent st

/-- Whether an event is a write to the active-download gauge. -/
def MetricEvent.isGauge : MetricEvent → Bool
  | .gaugeInc => true
  | .gaugeDec => true
  | _ => false

/-!
Client Resilience Controller (src/frontend/src/App.jsx).

The component state is the `items` array; in addition, each invocation of
`handleStart` owns an in-flight fetch (with its abort-timeout), and each
invocation of `pollUntilAvailable` owns a `setInterval` loop.  We embed
these as lists of uniquely-tokened records; a JS promise settling (resp. a
timer tick firing) is an event carrying the token of the fetch (resp.
loop) it belongs to.  A token that is no longer in the list corresponds to
a fetch already settled or an interval already cleared — such events are
no-ops and perform no network call.
-/

/-- The `status` strings an item can hold in App.jsx. -/
inductive ItemStatus where
  | idle
  | queued
  | starting
  | completed
  | failed
  | polling
  | available
  | checking
  | notFound
  | transportError
  deriving Repr, DecidableEq

/-- One entry of the `items` array (fields set by App.jsx's updaters;
fields that are `undefined` until first set are embedded as `Option`). -/
structure Item where
  fileId : Int
  status : ItemStatus
  message : Option String
  progress : Nat
  attempts : Nat
  downloadUrl : Option String
  size : Option Nat
  s3Key : Option String
  deriving Repr, DecidableEq

/-- An in-flight `startDownload` fetch created by `handleStart` (together
with its abort controller and 60s timeout). -/
structure StartReq where
  fileId : Int
  token : Nat
  deriving Repr, DecidableEq

/-- An active `setInterval` polling loop created by `pollUntilAvailable`,
with its loop-local `polls` counter. -/
structure PollLoop where
  fileId : Int
  token : Nat
  polls : Nat
  deriving Repr, DecidableEq

/-- `DEFAULT_POLL_INTERVAL` from App.jsx. -/
def DEFAULT_POLL_INTERVAL : Nat := 5000

/-- `maxPolls` from `pollUntilAvailable` (36 * 5s = 180s). -/
def maxPolls : Nat := 36

/-- The client-side abort timeout on `start` (`timeoutMs` in
`handleStart`). -/
def clientTimeoutMs : Nat := 60000

/-- The manual-retry attempt cap (`disabled={it.attempts >= 3}` on the
Retry button). -/
def retryAttemptCap : Nat := 3

/-- Full client-side state: the React `items` state plus the live fetches
and interval loops, with a fresh-token counter. -/
structure ClientState where
  items : List Item
  startReqs : List StartReq
  pollLoops : List PollLoop
  nextToken : Nat
  deriving Repr, DecidableEq

/-- The initial state: nothing tracked, nothing in flight. -/
def initState : ClientState := ⟨[], [], [], 0⟩

/-- The `setItems(s => s.map(it => it.fileId === fileId ? {...} : it))`
pattern every updater in App.jsx uses. -/
def mapItem (st : ClientState) (fid : Int) (g : Item → Item) : ClientState :=
  { st with items := st.items.map fun it =>
      if it.fileId == fid then g it else it }

/-- Look up the tracked item for a file id (first match, as in
`s.find(x => x.fileId === fileId)`). -/
def findItem (st : ClientState) (fid : Int) : Option Item :=
  st.items.find? (fun it => it.fileId == fid)

/-- The `status` of the tracked item for a file id. -/
def itemStatus (st : ClientState) (fid : Int) : Option ItemStatus :=
  (findItem st fid).map (·.status)

/-- The `message` of the tracked item for a file id. -/
def itemMessage (st : ClientState) (fid : Int) : Option String :=
  (findItem st fid).bind (·.message)

/-- The `attempts` counter of the tracked item for a file id. -/
def itemAttempts (st : ClientState) (fid : Int) : Option Nat :=
  (findItem st fid).map (·.attempts)

/-- `addItem` from App.jsx: append a fresh `idle` item unless the id is
already tracked. -/
def addItem (st : ClientState) (fid : Int) : ClientState :=
  if (findItem st fid).isSome then st
  else { st with items := st.items ++
      [{ fileId := fid, status := .idle, message := none, progress := 0,
         attempts := 0, downloadUrl := none, size := none, s3Key := none }] }

/-- The item update `handleStart` performs on entry: status `starting`,
message cleared, `attempts` incremented. -/
def startingUpdater (x : Item) : Item :=
  { x with status := .starting, message := none,
           attempts := x.attempts + 1 }

/-- The body of `handleStart` up to issuing the fetch: mark the item
`starting`, clear its message, increment `attempts`, and register the
in-flight request (with a fresh token standing for its promise /
abort controller).  Note: nothing already in flight is cancelled. -/
def handleStart (st : ClientState) (fid : Int) : ClientState :=
  let st1 := mapItem st fid startingUpdater
  { st1 with startReqs := st1.startReqs ++ [⟨fid, st1.nextToken⟩],
             nextToken := st1.nextToken + 1 }

/-- Pressing the Start button: it is rendered with
`disabled={status === "starting" || status === "polling" ||
status === "completed"}`, so the click reaches `handleStart` only
otherwise (and only for a tracked item). -/
def clickStart (st : ClientState) (fid : Int) : ClientState :=
  match findItem st fid with
  | none => st
  | some it =>
      if it.status = .starting ∨ it.status = .polling ∨
          it.status = .completed then st
      else handleStart st fid

/-- Pressing the Retry button: rendered with
`disabled={it.attempts >= 3}`; when enabled, `handleRetry` just calls
`handleStart` (no cancellation of anything in flight). -/
def clickRetry (st : ClientState) (fid : Int) : ClientState :=
  match findItem st fid with
  | none => st
  | some it =>
      if retryAttemptCap ≤ it.attempts then st
      else handleStart st fid

/-- Response body of a settled `startDownload` fetch as used by
`handleStart` (`res.status`, `res.message`, `res.downloadUrl`,
`res.size`). -/
structure StartRespBody where
  status : StartStatus
  message : Option String
  downloadUrl : Option String
  size : Option Nat
  deriving Repr, DecidableEq

/-- The item update on a `completed` start response. -/
def completedUpdater (resp : StartRespBody) (x : Item) : Item :=
  { x with status := .completed,
           message := some (resp.message.getD "Completed"),
           downloadUrl := resp.downloadUrl, size := resp.size }

/-- The item update on a `failed` start response. -/
def failedRespUpdater (resp : StartRespBody) (x : Item) : Item :=
  { x with status := .failed,
           message := some (resp.message.getD "Failed on server") }

/-- The `startDownload` promise for request `tok` resolves with `resp`:
the continuation of `handleStart` after `await`.  A token not in
`startReqs` belongs to a promise that already settled — nothing runs. -/
def startRespond (st : ClientState) (tok : Nat) (resp : StartRespBody) :
    ClientState :=
  match st.startReqs.find? (fun r => r.token == tok) with
  | none => st
  | some req =>
      let st1 := { st with startReqs :=
        st.startReqs.filter (fun r => !(r.token == tok)) }
      if resp.status = .completed then
        mapItem st1 req.fileId (completedUpdater resp)
      else
        mapItem st1 req.fileId (failedRespUpdater resp)

/-- The item update entering the polling fallback. -/
def pollingUpdater (x : Item) : Item :=
  { x with status := .polling,
           message := some "Waiting for availability (polling)..." }

/-- `pollUntilAvailable` from App.jsx: mark the item `polling` and start a
fresh interval loop with `polls = 0`.  No existing loop is cancelled. -/
def pollUntilAvailable (st : ClientState) (fid : Int) : ClientState :=
  let st1 := mapItem st fid pollingUpdater
  { st1 with pollLoops := st1.pollLoops ++ [⟨fid, st1.nextToken, 0⟩],
             nextToken := st1.nextToken + 1 }

/-- The `startDownload` promise for request `tok` rejects (client-side
abort timeout or transport error): the `catch` block of `handleStart`
falls back to `pollUntilAvailable`. -/
def startFail (st : ClientState) (tok : Nat) : ClientState :=
  match st.startReqs.find? (fun r => r.token == tok) with
  | none => st
  | some req =>
      pollUntilAvailable
        { st with startReqs :=
            st.startReqs.filter (fun r => !(r.token == tok)) }
        req.fileId

/-- The terminal message set when the poll cap is reached on a tick whose
`check` call returned an unavailable result. -/
def timeoutMessage : String := "Timed out waiting for availability"

/-- Outcome of one `checkDownload` call made by a poll tick: the parsed
response, or a rejection (transport error). -/
inductive TickOutcome where
  | ok (res : CheckResponse)
  | thrown
  deriving Repr, DecidableEq

/-- The item update when a poll tick finds the file available. -/
def availableUpdater (res : CheckResponse) (x : Item) : Item :=
  { x with status := .available, message := some "File available",
           s3Key := res.s3Key, size := res.size }

/-- The item update when the poll cap is reached on a returned result. -/
def timeoutUpdater (x : Item) : Item :=
  { x with status := .failed, message := some timeoutMessage }

/-- The item update when the poll cap is reached on a thrown `check`. -/
def pollFailUpdater (x : Item) : Item :=
  { x with status := .failed, message := some "Polling failed" }

/-- The progress-bar bump performed by a non-final successful tick. -/
def progressUpdater (x : Item) : Item :=
  { x with progress := min 95 (x.progress + 5) }

/-- Store the loop-local `polls` counter of loop `tok` back into the
state (the closure variable `polls` of `pollUntilAvailable`). -/
def bumpPolls (tok : Nat) (polls : Nat) (p : PollLoop) : PollLoop :=
  if p.token == tok then { p with polls := polls } else p

/-- One tick of the interval loop `tok` (the async callback in
`pollUntilAvailable`), together with the outcome of the `checkDownload`
call it makes.  A token not in `pollLoops` belongs to a cleared interval:
the callback never runs and no `check` call fires. -/
def pollTick (st : ClientState) (tok : Nat) (out : TickOutcome) :
    ClientState :=
  match st.pollLoops.find? (fun p => p.token == tok) with
  | none => st
  | some loop =>
      let polls := loop.polls + 1
      match out with
      | .ok res =>
          if res.available then
            mapItem { st with pollLoops :=
                st.pollLoops.filter (fun p => !(p.token == tok)) }
              loop.fileId (availableUpdater res)
          else if maxPolls ≤ polls then
            mapItem { st with pollLoops :=
                st.pollLoops.filter (fun p => !(p.token == tok)) }
              loop.fileId timeoutUpdater
          else
            mapItem { st with pollLoops := st.pollLoops.map (bumpPolls tok polls) }
              loop.fileId progressUpdater
      | .thrown =>
          if maxPolls ≤ polls then
            mapItem { st with pollLoops :=
                st.pollLoops.filter (fun p => !(p.token == tok)) }
              loop.fileId pollFailUpdater
          else
            { st with pollLoops := st.pollLoops.map (bumpPolls tok polls) }

/-- The externally-driven events of the client controller. -/
inductive CEvent where
  | add (fid : Int)
  | start (fid : Int)
  | retry (fid : Int)
  | respond (tok : Nat) (resp : StartRespBody)
  | fail (tok : Nat)
  | tick (tok : Nat) (out : TickOutcome)
  deriving Repr, DecidableEq

/-- The transition function of the client controller. -/
def step (st : ClientState) : CEvent → ClientState
  | .add fid => addItem st fid
  | .start fid => clickStart st fid
  | .retry fid => clickRetry st fid
  | .respond tok resp => startRespond st tok resp
  | .fail tok => startFail st tok
  | .tick tok out => pollTick st tok out

/-- Run a sequence of events from a state. -/
def runEvents (st : ClientState) (evs : List CEvent) : ClientState :=
  evs.foldl step st

/-- Whether an event is a press of the Retry button. -/
def CEvent.isRetry : CEvent → Bool
  | .retry _ => true
  | _ => false

/-- Whether a poll tick's `check` call came back with `available: true`. -/
def tickIsAvailable : TickOutcome → Bool
  | .ok res => res.available
  | .thrown => false

/-- The terminal message the polling loop sets on the tick that reaches
the poll cap: `timeoutMessage` when that `check` returned a result,
"Polling failed" when it threw. -/
def capFailureMessage : TickOutcome → String
  | .ok _ => timeoutMessage
  | .thrown => "Polling failed"

/-- The controller invariant maintained while new attempts are started
only through the (status-gated) Start button: every live interval loop
(resp. in-flight start request) belongs to an item currently in `polling`
(resp. `starting`) status, and no id owns two of either. -/
def LoopInv (st : ClientState) : Prop :=
  (st.pollLoops.map (·.fileId)).Nodup ∧
  (∀ l ∈ st.pollLoops, itemStatus st l.fileId = some .polling) ∧
  (st.startReqs.map (·.fileId)).Nodup ∧
  (∀ q ∈ st.startReqs, itemStatus st q.fileId = some .starting)

/-! ### Delay Simulator -/

/-- **C7**: `getRandomDelay` returns 0 whenever the enabled flag is false;
when enabled (and `minMs ≤ maxMs` with `Math.random()` drawing
`r ∈ [0,1)`) it returns an integer in the inclusive range
`[minMs, maxMs]`, and with `minMs = maxMs = k` it returns exactly `k`. -/
theorem delay_simulator_range (env : Env) (r : ℚ) (h0 : 0 ≤ r) (h1 : r < 1)
    (hmm : env.delayMinMs ≤ env.delayMaxMs) :
    (env.delayEnabled = false → getRandomDelay env r = 0) ∧
    (env.delayEnabled = true →
      (env.delayMinMs : Int) ≤ getRandomDelay env r ∧
      getRandomDelay env r ≤ (env.delayMaxMs : Int)) ∧
    (∀ k : Nat, env.delayEnabled = true → env.delayMinMs = k →
      env.delayMaxMs = k → getRandomDelay env r = (k : Int)) := by
  refine ⟨fun hd => by simp [getRandomDelay, hd], fun hd => ?_,
    fun k hd hmin hmax => ?_⟩
  · have hcast : ((env.delayMaxMs : ℚ) - (env.delayMinMs : ℚ) + 1) =
        (((env.delayMaxMs : ℤ) - (env.delayMinMs : ℤ) + 1 : ℤ) : ℚ) := by
      push_cast; ring
    have hnpos : (0 : ℤ) < (env.delayMaxMs : ℤ) - (env.delayMinMs : ℤ) + 1 := by
      omega
    have hq0 : (0 : ℚ) <
        (((env.delayMaxMs : ℤ) - (env.delayMinMs : ℤ) + 1 : ℤ) : ℚ) := by
      exact_mod_cast hnpos
    have hfl0 : 0 ≤
        ⌊r * (((env.delayMaxMs : ℤ) - (env.delayMinMs : ℤ) + 1 : ℤ) : ℚ)⌋ :=
      Int.floor_nonneg.mpr (mul_nonneg h0 hq0.le)
    have hflt :
        ⌊r * (((env.delayMaxMs : ℤ) - (env.delayMinMs : ℤ) + 1 : ℤ) : ℚ)⌋ <
          (env.delayMaxMs : ℤ) - (env.delayMinMs : ℤ) + 1 :=
      Int.floor_lt.mpr (by
        calc r * (((env.delayMaxMs : ℤ) - (env.delayMinMs : ℤ) + 1 : ℤ) : ℚ)
            < (((env.delayMaxMs : ℤ) - (env.delayMinMs : ℤ) + 1 : ℤ) : ℚ) :=
              mul_lt_of_lt_one_left hq0 h1)
    unfold getRandomDelay
    rw [hd]
    simp only [Bool.not_true, Bool.false_eq_true, if_false]
    rw [hcast]
    omega
  · unfold getRandomDelay
    rw [hd, hmin, hmax]
    have h1q : ((k : ℚ) - (k : ℚ) + 1) = 1 := by ring
    rw [h1q, mul_one, Int.floor_eq_zero_iff.mpr ⟨h0, h1⟩]
    simp
/-- Witness for `delay_simulator_range` at a concrete configuration. -/
theorem delay_simulator_range_witness :
    getRandomDelay ⟨"", true, 10, 10⟩ (1/2) = (10 : Int) :=
  (delay_simulator_range ⟨"", true, 10, 10⟩ (1/2) (by norm_num) (by norm_num)
    (le_refl _)).2.2 10 rfl rfl rfl

/-! ### `/v1/download/start` result shape and timing -/

/-- The `processingTimeMs` field of a start response is the elapsed-time
argument, on both the completed and the failed branch. -/
theorem downloadStartResult_processingTimeMs (fileId : Int)
    (s3Result : AvailabilityResult) (token : String) (p : Int) :
    (downloadStartResult fileId s3Result token p).processingTimeMs = p := by
  unfold downloadStartResult
  split <;> rfl

/-- **C8**: `processingTimeMs` is at least the delay drawn for the call.
`sleepEnd` is the instant the `sleep(delayMs)` promise resolves: the
`setTimeout` contract guarantees `t0 + delayMs ≤ sleepEnd`, and the
availability check only moves the clock forward (`sleepEnd ≤ tEnd`). -/
theorem processing_time_ge_delay (env : Env) (fileId : Int) (r : ℚ)
    (head : HeadOutcome) (mockRand : Nat) (token : String)
    (t0 sleepEnd tEnd : Int)
    (hsleep : t0 + getRandomDelay env r ≤ sleepEnd)
    (hcheck : sleepEnd ≤ tEnd) :
    getRandomDelay env r ≤
      (downloadStartRun env fileId r head mockRand token t0
        tEnd).processingTimeMs := by
  unfold downloadStartRun
  rw [downloadStartResult_processingTimeMs]
  omega
/-- Witness for `processing_time_ge_delay` at a concrete call. -/
theorem processing_time_ge_delay_witness :
    getRandomDelay ⟨"", true, 5, 5⟩ 0 ≤
      (downloadStartRun ⟨"", true, 5, 5⟩ 70000 0 (.success none) 0 "t" 0
        7).processingTimeMs :=
  processing_time_ge_delay ⟨"", true, 5, 5⟩ 70000 0 (.success none) 0 "t"
    0 5 7
    (by norm_num [getRandomDelay]) (by norm_num)

/-- **C1 (counterexample)**: in backed mode, a HEAD response without a
`ContentLength` (the SDK field is optional, and the handler writes
`response.ContentLength ?? null`) yields a `Completed` start result whose
`size` is null — against the claimed invariant. -/
theorem completed_null_size_cex :
    (downloadStartRun ⟨"bucket", false, 0, 0⟩ 10000 0 (.success none) 0
      "tok" 0 0).status = .completed ∧
    (downloadStartRun ⟨"bucket", false, 0, 0⟩ 10000 0 (.success none) 0
      "tok" 0 0).size = none := by
  constructor <;> rfl

/-- **C1 (amended)**: a `Failed` start result always carries null
`downloadUrl` and `size`; a `Completed` result always carries a non-null
`downloadUrl`, and a non-null `size` in mock mode — but in backed mode its
`size` is the store-reported `ContentLength`, which may be absent. -/
theorem startResult_nullability (env : Env) (fileId : Int) (r : ℚ)
    (head : HeadOutcome) (mockRand : Nat) (token : String) (t0 tEnd : Int) :
    ((downloadStartRun env fileId r head mockRand token t0 tEnd).status =
        .failed →
      (downloadStartRun env fileId r head mockRand token t0
          tEnd).downloadUrl = none ∧
      (downloadStartRun env fileId r head mockRand token t0 tEnd).size =
        none) ∧
    ((downloadStartRun env fileId r head mockRand token t0 tEnd).status =
        .completed →
      (downloadStartRun env fileId r head mockRand token t0
          tEnd).downloadUrl ≠ none) ∧
    (env.bucketName = "" →
      (downloadStartRun env fileId r head mockRand token t0 tEnd).status =
        .completed →
      (downloadStartRun env fileId r head mockRand token t0 tEnd).size ≠
        none) := by
  by_cases hb : env.bucketName = ""
  · by_cases h7 : fileId % 7 = 0
    · simp [downloadStartRun, checkS3Availability, downloadStartResult, hb,
        h7]
    · simp [downloadStartRun, checkS3Availability, downloadStartResult, hb,
        h7]
  · cases head with
    | success contentLength =>
        simp [downloadStartRun, checkS3Availability, downloadStartResult,
          hb]
    | thrown =>
        simp [downloadStartRun, checkS3Availability, downloadStartResult,
          hb]
/-- Witness for `startResult_nullability`: mock mode, id divisible by 7. -/
theorem startResult_nullability_witness :
    (downloadStartRun ⟨"", true, 0, 0⟩ 70000 0 .thrown 0 "tok" 0 3).status =
      .completed →
    (downloadStartRun ⟨"", true, 0, 0⟩ 70000 0 .thrown 0 "tok" 0 3).size ≠
      none :=
  (startResult_nullability ⟨"", true, 0, 0⟩ 70000 0 .thrown 0 "tok" 0
    3).2.2 rfl

/-! ### `/v1/download/check` fault injection -/

/-- **C6**: with the `sentry_test=true` fault-injection flag, `check`
throws an error whose message embeds the resource id (so it never returns
an availability result); with any other flag value it returns the
Availability Checker's result unchanged (with the echoed `file_id`). -/
theorem check_fault_injection (env : Env) (head : HeadOutcome)
    (mockRand : Nat) (fileId : Int) :
    (downloadCheck env head mockRand fileId (some "true") =
      .error ("Sentry test error triggered for file_id=" ++
        toString fileId ++ " - This should appear in Sentry!")) ∧
    (∃ pre post : String,
      "Sentry test error triggered for file_id=" ++ toString fileId ++
        " - This should appear in Sentry!" =
        pre ++ toString fileId ++ post) ∧
    (∀ q : Option String, q ≠ some "true" →
      downloadCheck env head mockRand fileId q =
        .ok ⟨fileId, (checkS3Availability env head mockRand fileId).available,
          (checkS3Availability env head mockRand fileId).s3Key,
          (checkS3Availability env head mockRand fileId).size⟩) := by
  refine ⟨by simp [downloadCheck],
    ⟨"Sentry test error triggered for file_id=",
      " - This should appear in Sentry!", rfl⟩, fun q hq => ?_⟩
  unfold downloadCheck
  rw [if_neg hq]
/-- Witness for `check_fault_injection`: no flag, mock mode, id 70000. -/
theorem check_fault_injection_witness :
    downloadCheck ⟨"", true, 0, 0⟩ .thrown 5 70000 none =
      .ok ⟨70000, (checkS3Availability ⟨"", true, 0, 0⟩ .thrown 5
          70000).available,
        (checkS3Availability ⟨"", true, 0, 0⟩ .thrown 5 70000).s3Key,
        (checkS3Availability ⟨"", true, 0, 0⟩ .thrown 5 70000).size⟩ :=
  (check_fault_injection ⟨"", true, 0, 0⟩ .thrown 5 70000).2.2 none
    (by simp)

/-! ### `/v1/download/start` gauge discipline -/

/-- Size-histogram observations never touch the gauge. -/
theorem fileSizeEvents_gaugeFree (o : Option Nat) :
    ∀ e ∈ fileSizeEvents o, e.isGauge = false := by
  intro e he
  cases o with
  | none => simp [fileSizeEvents] at he
  | some n =>
      simp only [fileSizeEvents] at he
      split at he
      · simp only [List.mem_cons, List.not_mem_nil, or_false] at he
        subst he; rfl
      · simp at he

/-- The `try` block of the start handler never writes the gauge: its only
shared-state writes are metric observations. -/
theorem downloadStartTryBlock_gaugeFree (env : Env) (fileId : Int) (r : ℚ)
    (head : HeadOutcome) (mockRand : Nat) (token : String) (t0 tEnd : Int)
    (failAt : Option FailPoint) :
    ∀ e ∈ (downloadStartTryBlock env fileId r head mockRand token t0 tEnd
      failAt).2, e.isGauge = false := by
  intro e he
  match failAt with
  | some .atDelay =>
      simp [downloadStartTryBlock] at he
  | some .atSleep =>
      simp [downloadStartTryBlock] at he
      subst he; rfl
  | some .atCheck =>
      simp [downloadStartTryBlock] at he
      subst he; rfl
  | none =>
      simp only [downloadStartTryBlock] at he
      split at he
      · rcases List.mem_append.mp he with h1 | h2
        · rcases List.mem_append.mp h1 with h3 | h4
          · simp only [List.mem_cons, List.not_mem_nil, or_false] at h3
            rcases h3 with h | h <;> (subst h; rfl)
          · simp only [List.mem_cons, List.not_mem_nil, or_false] at h4
            subst h4; rfl
        · exact fileSizeEvents_gaugeFree _ e h2
      · rcases List.mem_append.mp he with h1 | h2
        · simp only [List.mem_cons, List.not_mem_nil, or_false] at h1
          rcases h1 with h | h <;> (subst h; rfl)
        · simp only [List.mem_cons, List.not_mem_nil, or_false] at h2
          subst h2; rfl

/-- A non-gauge write leaves the gauge and the untouched component of the
server state unchanged. -/
theorem applyEvent_not_gauge (e : MetricEvent) (he : e.isGauge = false)
    (st : ServerState) :
    (applyEvent st e).gauge = st.gauge ∧
    (applyEvent st e).other = st.other := by
  cases e <;> simp_all [MetricEvent.isGauge, applyEvent]

/-- Folding a gauge-free write list preserves the gauge and the untouched
component. -/
theorem applyEvents_gaugeFree (evs : List MetricEvent)
    (h : ∀ e ∈ evs, e.isGauge = false) (st : ServerState) :
    (applyEvents st evs).gauge = st.gauge ∧
    (applyEvents st evs).other = st.other := by
  induction evs generalizing st with
  | nil => exact ⟨rfl, rfl⟩
  | cons e evs ih =>
      have he := h e (by simp)
      have hrest : ∀ e2 ∈ evs, e2.isGauge = false :=
        fun e2 h2 => h e2 (by simp [h2])
      have h1 := applyEvent_not_gauge e he st
      have h2 := ih hrest (applyEvent st e)
      unfold applyEvents at h2 ⊢
      rw [List.foldl_cons]
      exact ⟨h2.1.trans h1.1, h2.2.trans h1.2⟩

/-- The last element of `l ++ [a]` is `a`. -/
theorem getLastq_snoc {α : Type} (l : List α) (a : α) :
    (l ++ [a]).getLast? = some a := by
  induction l with
  | nil => rfl
  | cons b l ih =>
      cases l with
      | nil => rfl
      | cons c l2 =>
          simp only [List.cons_append] at ih ⊢
          rw [List.getLast?_cons_cons]
          exact ih

/-- **C9**: every start-handler execution — success, failed verdict or an
unexpected exception in the delay/sleep/check steps — increments the
active-download gauge exactly once (as its first shared-state write),
decrements it exactly once (as its last), and has zero net effect on the
gauge; no server state outside the gauge and the metric ledger is
written. -/
theorem start_gauge_balanced (env : Env) (fileId : Int) (r : ℚ)
    (head : HeadOutcome) (mockRand : Nat) (token : String) (t0 tEnd : Int)
    (failAt : Option FailPoint) (st : ServerState) :
    (downloadStartExec env fileId r head mockRand token t0 tEnd
        failAt).2.count .gaugeInc = 1 ∧
    (downloadStartExec env fileId r head mockRand token t0 tEnd
        failAt).2.count .gaugeDec = 1 ∧
    (downloadStartExec env fileId r head mockRand token t0 tEnd
        failAt).2.head? = some .gaugeInc ∧
    (downloadStartExec env fileId r head mockRand token t0 tEnd
        failAt).2.getLast? = some .gaugeDec ∧
    (applyEvents st (downloadStartExec env fileId r head mockRand token t0
        tEnd failAt).2).gauge = st.gauge ∧
    (applyEvents st (downloadStartExec env fileId r head mockRand token t0
        tEnd failAt).2).other = st.other := by
  have hbody := downloadStartTryBlock_gaugeFree env fileId r head mockRand
    token t0 tEnd failAt
  have hinc : (downloadStartTryBlock env fileId r head mockRand token t0
      tEnd failAt).2.count MetricEvent.gaugeInc = 0 :=
    List.count_eq_zero.mpr fun hmem => by
      have := hbody _ hmem; simp [MetricEvent.isGauge] at this
  have hdec : (downloadStartTryBlock env fileId r head mockRand token t0
      tEnd failAt).2.count MetricEvent.gaugeDec = 0 :=
    List.count_eq_zero.mpr fun hmem => by
      have := hbody _ hmem; simp [MetricEvent.isGauge] at this
  have hexec : (downloadStartExec env fileId r head mockRand token t0 tEnd
      failAt).2 = MetricEvent.gaugeInc ::
        (downloadStartTryBlock env fileId r head mockRand token t0 tEnd
          failAt).2 ++ [MetricEvent.gaugeDec] := rfl
  refine ⟨?_, ?_, ?_, ?_, ?_, ?_⟩
  · rw [hexec]
    simp [List.count_cons, List.count_append, hinc]
  · rw [hexec]
    simp [List.count_cons, List.count_append, hdec]
  · rw [hexec]; rfl
  · rw [hexec]
    exact getLastq_snoc _ _
  · rw [hexec]
    unfold applyEvents
    simp only [List.foldl_append, List.foldl_cons, List.foldl_nil]
    have hmid := applyEvents_gaugeFree _ hbody
      (applyEvent st MetricEvent.gaugeInc)
    unfold applyEvents at hmid
    have h3 : (applyEvent st MetricEvent.gaugeInc).gauge = st.gauge + 1 :=
      rfl
    have h4 : ∀ Y : ServerState,
        (applyEvent Y MetricEvent.gaugeDec).gauge = Y.gauge - 1 :=
      fun Y => rfl
    rw [h4, hmid.1, h3]
    omega
  · rw [hexec]
    unfold applyEvents
    simp only [List.foldl_append, List.foldl_cons, List.foldl_nil]
    have hmid := applyEvents_gaugeFree _ hbody
      (applyEvent st MetricEvent.gaugeInc)
    unfold applyEvents at hmid
    have h3 : (applyEvent st MetricEvent.gaugeInc).other = st.other := rfl
    have h4 : ∀ Y : ServerState,
        (applyEvent Y MetricEvent.gaugeDec).other = Y.other :=
      fun Y => rfl
    rw [h4, hmid.2, h3]

/-! ### Client controller: list toolkit -/

/-- `find?` commutes with a `map` whose function preserves the search
predicate. -/
theorem find_map_comm {α : Type} (p : α → Bool) (h : α → α)
    (hp : ∀ a, p (h a) = p a) :
    ∀ l : List α, (l.map h).find? p = (l.find? p).map h := by
  intro l
  induction l with
  | nil => rfl
  | cons a l ih =>
      by_cases hpa : p a = true
      · rw [List.map_cons, List.find?_cons_of_pos _ ((hp a).trans hpa),
          List.find?_cons_of_pos _ hpa]
        rfl
      · have hna : ¬p (h a) = true := by rw [hp]; exact hpa
        rw [List.map_cons, List.find?_cons_of_neg _ hna,
          List.find?_cons_of_neg _ hpa, ih]

/-- A successful `find?` is unaffected by appending. -/
theorem find?_append_of_some {α : Type} (p : α → Bool) {l1 : List α}
    (l2 : List α) {a : α} (h : l1.find? p = some a) :
    (l1 ++ l2).find? p = some a := by
  induction l1 with
  | nil => simp [List.find?] at h
  | cons b l ih =>
      by_cases hb : p b = true
      · rw [List.find?_cons_of_pos _ hb] at h
        rw [List.cons_append, List.find?_cons_of_pos _ hb]
        exact h
      · rw [List.find?_cons_of_neg _ hb] at h
        rw [List.cons_append, List.find?_cons_of_neg _ hb]
        exact ih h

/-- After filtering out everything matching `p`, `find? p` fails. -/
theorem find?_filter_not {α : Type} (p : α → Bool) (l : List α) :
    (l.filter (fun a => !(p a))).find? p = none := by
  apply List.find?_eq_none.mpr
  intro a ha
  have h2 := (List.mem_filter.mp ha).2
  simp only [Bool.not_eq_true'] at h2
  simp [h2]

/-- `Nodup` extends over appending a fresh element. -/
theorem nodup_append_singleton {α : Type} {l : List α} {a : α}
    (h : l.Nodup) (ha : a ∉ l) : (l ++ [a]).Nodup := by
  simp [List.nodup_append, h, ha]

/-- Filtering preserves `Nodup` of an image list. -/
theorem nodup_map_filter {α β : Type} (f : α → β) (p : α → Bool)
    (l : List α) (h : (l.map f).Nodup) : ((l.filter p).map f).Nodup :=
  List.Nodup.sublist ((l.filter_sublist (p := p)).map f) h

/-! ### Client controller: item-lookup lemmas -/

/-- `findItem` after the `setItems(map ...)` pattern, for an updater that
does not change the file id. -/
theorem findItem_mapItem (st : ClientState) (fid f : Int) (g : Item → Item)
    (hg : ∀ it, (g it).fileId = it.fileId) :
    findItem (mapItem st fid g) f =
      (findItem st f).map (fun it => if it.fileId == fid then g it else it) := by
  unfold findItem mapItem
  exact find_map_comm _ _
    (fun a => by by_cases h : a.fileId == fid <;> simp [h, hg]) _

/-- The item `findItem` returns carries the id it was looked up by. -/
theorem findItem_fileId {st : ClientState} {fid : Int} {it : Item}
    (h : findItem st fid = some it) : it.fileId = fid := by
  unfold findItem at h
  have := List.find?_some h
  simpa using this

/-- `itemStatus` through a successful `findItem`. -/
theorem itemStatus_of_findItem {st : ClientState} {fid : Int} {it : Item}
    (h : findItem st fid = some it) : itemStatus st fid = some it.status := by
  unfold itemStatus
  rw [h]
  rfl

/-- Updating one item leaves every other id's status untouched. -/
theorem itemStatus_mapItem_ne (st : ClientState) (fid f : Int)
    (g : Item → Item) (hg : ∀ it, (g it).fileId = it.fileId)
    (hne : f ≠ fid) :
    itemStatus (mapItem st fid g) f = itemStatus st f := by
  unfold itemStatus
  rw [findItem_mapItem st fid f g hg]
  cases hf : findItem st f with
  | none => rfl
  | some it =>
      have hid : it.fileId = f := findItem_fileId hf
      simp [hid, hne]

/-- Updating the looked-up item rewrites its status through the updater. -/
theorem itemStatus_mapItem_self (st : ClientState) (fid : Int)
    (g : Item → Item) (hg : ∀ it, (g it).fileId = it.fileId) (it : Item)
    (hf : findItem st fid = some it) :
    itemStatus (mapItem st fid g) fid = some (g it).status := by
  unfold itemStatus
  rw [findItem_mapItem st fid fid g hg, hf]
  simp [findItem_fileId hf]

/-- A status-preserving updater leaves every id's status untouched. -/
theorem itemStatus_mapItem_statusPreserve (st : ClientState) (fid : Int)
    (g : Item → Item) (hg : ∀ it, (g it).fileId = it.fileId)
    (hs : ∀ it, (g it).status = it.status) (f : Int) :
    itemStatus (mapItem st fid g) f = itemStatus st f := by
  unfold itemStatus
  rw [findItem_mapItem st fid f g hg]
  cases hf : findItem st f with
  | none => rfl
  | some it =>
      by_cases hc : it.fileId = fid <;> simp [hc, hs]

/-- Updating the looked-up item rewrites its message through the updater. -/
theorem itemMessage_mapItem_self (st : ClientState) (fid : Int)
    (g : Item → Item) (hg : ∀ it, (g it).fileId = it.fileId) (it : Item)
    (hf : findItem st fid = some it) :
    itemMessage (mapItem st fid g) fid = (g it).message := by
  unfold itemMessage
  rw [findItem_mapItem st fid fid g hg, hf]
  simp [findItem_fileId hf]

/-- Updating the looked-up item rewrites its attempts counter through the
updater. -/
theorem itemAttempts_mapItem_self (st : ClientState) (fid : Int)
    (g : Item → Item) (hg : ∀ it, (g it).fileId = it.fileId) (it : Item)
    (hf : findItem st fid = some it) :
    itemAttempts (mapItem st fid g) fid = some (g it).attempts := by
  unfold itemAttempts
  rw [findItem_mapItem st fid fid g hg, hf]
  simp [findItem_fileId hf]

/-- `addItem` preserves every already-assigned status. -/
theorem itemStatus_addItem {st : ClientState} (fid : Int) {f : Int}
    {s : ItemStatus} (h : itemStatus st f = some s) :
    itemStatus (addItem st fid) f = some s := by
  unfold addItem
  split
  · exact h
  · unfold itemStatus findItem at h ⊢
    cases hf : st.items.find? (fun it => it.fileId == f) with
    | none => rw [hf] at h; cases h
    | some it =>
        rw [hf] at h
        rw [find?_append_of_some _ _ hf]
        exact h

/-- An assigned status means the item is tracked. -/
theorem findItem_of_itemStatus {st : ClientState} {fid : Int}
    {s : ItemStatus} (h : itemStatus st fid = some s) :
    ∃ it, findItem st fid = some it := by
  unfold itemStatus at h
  cases hfi : findItem st fid with
  | none => rw [hfi] at h; cases h
  | some it => exact ⟨it, rfl⟩

/-! ### Client controller: invariant preservation -/

/-- `addItem` does not touch the poll loops. -/
theorem addItem_pollLoops (st : ClientState) (fid : Int) :
    (addItem st fid).pollLoops = st.pollLoops := by
  unfold addItem; split <;> rfl

/-- `addItem` does not touch the in-flight start requests. -/
theorem addItem_startReqs (st : ClientState) (fid : Int) :
    (addItem st fid).startReqs = st.startReqs := by
  unfold addItem; split <;> rfl

/-- Tracking a new id preserves the controller invariant. -/
theorem inv_addItem (st : ClientState) (fid : Int) (h : LoopInv st) :
    LoopInv (addItem st fid) := by
  obtain ⟨hLN, hLP, hRN, hRS⟩ := h
  refine ⟨?_, ?_, ?_, ?_⟩
  · rw [addItem_pollLoops]; exact hLN
  · intro l hl
    rw [addItem_pollLoops] at hl
    exact itemStatus_addItem fid (hLP l hl)
  · rw [addItem_startReqs]; exact hRN
  · intro q hq
    rw [addItem_startReqs] at hq
    exact itemStatus_addItem fid (hRS q hq)

/-- `handleStart` on an item that is neither `starting` nor `polling`
preserves the controller invariant (the two excluded statuses are exactly
what the Start-button gate rules out). -/
theorem inv_handleStart (st : ClientState) (fid : Int) (it : Item)
    (h : LoopInv st) (hf : findItem st fid = some it)
    (hns : it.status ≠ .starting) (hnp : it.status ≠ .polling) :
    LoopInv (handleStart st fid) := by
  obtain ⟨hLN, hLP, hRN, hRS⟩ := h
  have hstat : itemStatus st fid = some it.status := itemStatus_of_findItem hf
  have hfresh : ∀ q ∈ st.startReqs, q.fileId ≠ fid := by
    intro q hq he
    have h2 := hRS q hq
    rw [he, hstat] at h2
    exact hns (Option.some.inj h2)
  refine ⟨?_, ?_, ?_, ?_⟩
  · exact hLN
  · intro l hl
    have hl2 : l ∈ st.pollLoops := hl
    have hpol := hLP l hl2
    have hne : l.fileId ≠ fid := by
      intro he
      rw [he, hstat] at hpol
      exact hnp (Option.some.inj hpol)
    have h2 : itemStatus (handleStart st fid) l.fileId =
        itemStatus (mapItem st fid startingUpdater) l.fileId := rfl
    rw [h2, itemStatus_mapItem_ne st fid l.fileId startingUpdater
      (fun _ => rfl) hne]
    exact hpol
  · show ((st.startReqs ++ [(⟨fid, st.nextToken⟩ : StartReq)]).map
      (·.fileId)).Nodup
    rw [List.map_append]
    refine nodup_append_singleton hRN ?_
    intro hmem
    obtain ⟨q, hq, hqf⟩ := List.mem_map.mp hmem
    exact hfresh q hq hqf
  · intro q hq
    have hq2 : q ∈ st.startReqs ++ [(⟨fid, st.nextToken⟩ : StartReq)] := hq
    rw [List.mem_append] at hq2
    rcases hq2 with hq1 | hq1
    · have hne := hfresh q hq1
      have h2 : itemStatus (handleStart st fid) q.fileId =
          itemStatus (mapItem st fid startingUpdater) q.fileId := rfl
      rw [h2, itemStatus_mapItem_ne st fid q.fileId startingUpdater
        (fun _ => rfl) hne]
      exact hRS q hq1
    · have hqe : q = (⟨fid, st.nextToken⟩ : StartReq) := by
        simpa using hq1
      subst hqe
      have h2 : itemStatus (handleStart st fid) fid =
          itemStatus (mapItem st fid startingUpdater) fid := rfl
      rw [h2, itemStatus_mapItem_self st fid startingUpdater
        (fun _ => rfl) it hf]
      rfl

/-- Pressing Start preserves the controller invariant: the button gate
rules out exactly the statuses owning a live request or loop. -/
theorem inv_clickStart (st : ClientState) (fid : Int) (h : LoopInv st) :
    LoopInv (clickStart st fid) := by
  unfold clickStart
  cases hf : findItem st fid with
  | none => exact h
  | some it =>
      by_cases hgate : it.status = .starting ∨ it.status = .polling ∨
          it.status = .completed
      · show LoopInv (if it.status = .starting ∨ it.status = .polling ∨
            it.status = .completed then st else handleStart st fid)
        rw [if_pos hgate]
        exact h
      · show LoopInv (if it.status = .starting ∨ it.status = .polling ∨
            it.status = .completed then st else handleStart st fid)
        rw [if_neg hgate]
        push_neg at hgate
        exact inv_handleStart st fid it h hf hgate.1 hgate.2.1

/-- Consuming an in-flight start request and moving its item to a status
that is neither `polling` nor `starting` preserves the invariant. -/
theorem inv_consumeStartReq (st : ClientState) (tok : Nat) (req : StartReq)
    (g : Item → Item) (h : LoopInv st)
    (hreq : st.startReqs.find? (fun q => q.token == tok) = some req)
    (hg : ∀ x, (g x).fileId = x.fileId)
    (hgp : ∀ x, (g x).status ≠ ItemStatus.polling)
    (hgs : ∀ x, (g x).status ≠ ItemStatus.starting) :
    LoopInv (mapItem
      { st with startReqs := st.startReqs.filter (fun q => !(q.token == tok)) }
      req.fileId g) := by
  obtain ⟨hLN, hLP, hRN, hRS⟩ := h
  have hmem : req ∈ st.startReqs := List.mem_of_find?_eq_some hreq
  have htok : req.token = tok := by
    have h2 := List.find?_some hreq
    simpa using h2
  have hstat := hRS req hmem
  refine ⟨?_, ?_, ?_, ?_⟩
  · exact hLN
  · intro l hl
    have hl2 : l ∈ st.pollLoops := hl
    have hpol := hLP l hl2
    have hne : l.fileId ≠ req.fileId := by
      intro he
      rw [he, hstat] at hpol
      cases hpol
    rw [itemStatus_mapItem_ne _ req.fileId l.fileId g hg hne]
    exact hpol
  · exact nodup_map_filter _ _ _ hRN
  · intro q hq
    have hq2 : q ∈ st.startReqs.filter (fun q => !(q.token == tok)) := hq
    have hqm := (List.mem_filter.mp hq2).1
    have hqt := (List.mem_filter.mp hq2).2
    have hne : q.fileId ≠ req.fileId := by
      intro he
      have hqr : q = req := List.inj_on_of_nodup_map hRN hqm hmem he
      rw [hqr, htok] at hqt
      simp at hqt
    rw [itemStatus_mapItem_ne _ req.fileId q.fileId g hg hne]
    exact hRS q hqm

/-- A settling start response preserves the invariant. -/
theorem inv_startRespond (st : ClientState) (tok : Nat)
    (resp : StartRespBody) (h : LoopInv st) :
    LoopInv (startRespond st tok resp) := by
  unfold startRespond
  cases hreq : st.startReqs.find? (fun q => q.token == tok) with
  | none => exact h
  | some req =>
      by_cases hc : resp.status = StartStatus.completed
      · show LoopInv (if resp.status = StartStatus.completed then _ else _)
        rw [if_pos hc]
        exact inv_consumeStartReq st tok req (completedUpdater resp) h hreq
          (fun _ => rfl) (fun _ => by simp [completedUpdater])
          (fun _ => by simp [completedUpdater])
      · show LoopInv (if resp.status = StartStatus.completed then _ else _)
        rw [if_neg hc]
        exact inv_consumeStartReq st tok req (failedRespUpdater resp) h hreq
          (fun _ => rfl) (fun _ => by simp [failedRespUpdater])
          (fun _ => by simp [failedRespUpdater])

/-- A rejecting start call (timeout/transport error) preserves the
invariant: the consumed request is replaced by a fresh polling loop. -/
theorem inv_startFail (st : ClientState) (tok : Nat) (h : LoopInv st) :
    LoopInv (startFail st tok) := by
  unfold startFail
  cases hreq : st.startReqs.find? (fun q => q.token == tok) with
  | none => exact h
  | some req =>
      obtain ⟨hLN, hLP, hRN, hRS⟩ := h
      have hmem : req ∈ st.startReqs := List.mem_of_find?_eq_some hreq
      have htok : req.token = tok := by
        have h2 := List.find?_some hreq
        simpa using h2
      have hstat := hRS req hmem
      obtain ⟨it, hfi⟩ := findItem_of_itemStatus hstat
      have hloopne : ∀ l ∈ st.pollLoops, l.fileId ≠ req.fileId := by
        intro l hl he
        have hpol := hLP l hl
        rw [he, hstat] at hpol
        cases hpol
      unfold pollUntilAvailable
      refine ⟨?_, ?_, ?_, ?_⟩
      · show ((st.pollLoops ++
          [(⟨req.fileId, st.nextToken, 0⟩ : PollLoop)]).map (·.fileId)).Nodup
        rw [List.map_append]
        refine nodup_append_singleton hLN ?_
        intro hmemf
        obtain ⟨l, hl, hlf⟩ := List.mem_map.mp hmemf
        exact hloopne l hl hlf
      · intro l hl
        have hl2 : l ∈ st.pollLoops ++
            [(⟨req.fileId, st.nextToken, 0⟩ : PollLoop)] := hl
        rw [List.mem_append] at hl2
        rcases hl2 with hl1 | hl1
        · have hne := hloopne l hl1
          have h2 : itemStatus (mapItem
              { st with
                startReqs := st.startReqs.filter (fun q => !(q.token == tok)) }
              req.fileId pollingUpdater) l.fileId =
              itemStatus st l.fileId := by
            rw [itemStatus_mapItem_ne _ req.fileId l.fileId pollingUpdater
              (fun _ => rfl) hne]
            rfl
          exact h2.trans (hLP l hl1)
        · have hle : l = (⟨req.fileId, st.nextToken, 0⟩ : PollLoop) := by
            simpa using hl1
          subst hle
          exact itemStatus_mapItem_self
            { st with
              startReqs := st.startReqs.filter (fun q => !(q.token == tok)) }
            req.fileId pollingUpdater (fun _ => rfl) it hfi
      · exact nodup_map_filter _ _ _ hRN
      · intro q hq
        have hq2 : q ∈ st.startReqs.filter (fun q => !(q.token == tok)) := hq
        have hqm := (List.mem_filter.mp hq2).1
        have hqt := (List.mem_filter.mp hq2).2
        have hne : q.fileId ≠ req.fileId := by
          intro he
          have hqr : q = req := List.inj_on_of_nodup_map hRN hqm hmem he
          rw [hqr, htok] at hqt
          simp at hqt
        have h2 : itemStatus (mapItem
            { st with
              startReqs := st.startReqs.filter (fun q => !(q.token == tok)) }
            req.fileId pollingUpdater) q.fileId =
            itemStatus st q.fileId := by
          rw [itemStatus_mapItem_ne _ req.fileId q.fileId pollingUpdater
            (fun _ => rfl) hne]
          rfl
        exact h2.trans (hRS q hqm)

/-- Clearing a loop and moving its item to a status that is neither
`polling` nor `starting` preserves the invariant. -/
theorem inv_consumeLoop (st : ClientState) (tok : Nat) (loop : PollLoop)
    (g : Item → Item) (h : LoopInv st)
    (hloop : st.pollLoops.find? (fun p => p.token == tok) = some loop)
    (hg : ∀ x, (g x).fileId = x.fileId)
    (hgp : ∀ x, (g x).status ≠ ItemStatus.polling)
    (hgs : ∀ x, (g x).status ≠ ItemStatus.starting) :
    LoopInv (mapItem
      { st with pollLoops := st.pollLoops.filter (fun p => !(p.token == tok)) }
      loop.fileId g) := by
  obtain ⟨hLN, hLP, hRN, hRS⟩ := h
  have hmem : loop ∈ st.pollLoops := List.mem_of_find?_eq_some hloop
  have htok : loop.token = tok := by
    have h2 := List.find?_some hloop
    simpa using h2
  have hstat := hLP loop hmem
  refine ⟨?_, ?_, ?_, ?_⟩
  · exact nodup_map_filter _ _ _ hLN
  · intro l hl
    have hl2 : l ∈ st.pollLoops.filter (fun p => !(p.token == tok)) := hl
    have hlm := (List.mem_filter.mp hl2).1
    have hlt := (List.mem_filter.mp hl2).2
    have hne : l.fileId ≠ loop.fileId := by
      intro he
      have hlr : l = loop := List.inj_on_of_nodup_map hLN hlm hmem he
      rw [hlr, htok] at hlt
      simp at hlt
    rw [itemStatus_mapItem_ne _ loop.fileId l.fileId g hg hne]
    exact hLP l hlm
  · exact hRN
  · intro q hq
    have hq2 : q ∈ st.startReqs := hq
    have hrs := hRS q hq2
    have hne : q.fileId ≠ loop.fileId := by
      intro he
      rw [he, hstat] at hrs
      cases hrs
    rw [itemStatus_mapItem_ne _ loop.fileId q.fileId g hg hne]
    exact hrs

/-- Rewriting the loop-local counters (a token-targeted `map` over the
loops) preserves the invariant. -/
theorem inv_updateLoops (st : ClientState) (u : PollLoop → PollLoop)
    (hu : ∀ p, (u p).fileId = p.fileId) (h : LoopInv st) :
    LoopInv { st with pollLoops := st.pollLoops.map u } := by
  obtain ⟨hLN, hLP, hRN, hRS⟩ := h
  refine ⟨?_, ?_, hRN, hRS⟩
  · show ((st.pollLoops.map u).map (·.fileId)).Nodup
    rw [List.map_map]
    have he : ((fun l : PollLoop => l.fileId) ∘ u) =
        fun l : PollLoop => l.fileId := funext fun p => hu p
    rw [he]
    exact hLN
  · intro l hl
    have hl2 : l ∈ st.pollLoops.map u := hl
    obtain ⟨p, hp, hpe⟩ := List.mem_map.mp hl2
    have hfe : l.fileId = p.fileId := by rw [← hpe]; exact hu p
    rw [hfe]
    exact hLP p hp

/-- A counter rewrite combined with a status-preserving item update
(the progress-bar branch of a tick) preserves the invariant. -/
theorem inv_updateLoops_mapItem (st : ClientState) (u : PollLoop → PollLoop)
    (hu : ∀ p, (u p).fileId = p.fileId) (fid : Int) (g : Item → Item)
    (hg : ∀ x, (g x).fileId = x.fileId)
    (hs : ∀ x, (g x).status = x.status) (h : LoopInv st) :
    LoopInv (mapItem { st with pollLoops := st.pollLoops.map u } fid g) := by
  obtain ⟨hLN, hLP, hRN, hRS⟩ := inv_updateLoops st u hu h
  refine ⟨hLN, ?_, hRN, ?_⟩
  · intro l hl
    rw [itemStatus_mapItem_statusPreserve _ fid g hg hs]
    exact hLP l hl
  · intro q hq
    rw [itemStatus_mapItem_statusPreserve _ fid g hg hs]
    exact hRS q hq

/-- A poll tick preserves the invariant. -/
theorem inv_pollTick (st : ClientState) (tok : Nat) (out : TickOutcome)
    (h : LoopInv st) : LoopInv (pollTick st tok out) := by
  unfold pollTick
  cases hloop : st.pollLoops.find? (fun p => p.token == tok) with
  | none => exact h
  | some loop =>
      have hbump : ∀ p, (bumpPolls tok (loop.polls + 1) p).fileId =
          p.fileId := by
        intro p
        unfold bumpPolls
        split <;> rfl
      cases out with
      | ok res =>
          by_cases hav : res.available = true
          · show LoopInv (if res.available = true then _ else _)
            rw [if_pos hav]
            exact inv_consumeLoop st tok loop (availableUpdater res) h hloop
              (fun _ => rfl) (fun _ => by simp [availableUpdater])
              (fun _ => by simp [availableUpdater])
          · show LoopInv (if res.available = true then _ else _)
            rw [if_neg hav]
            by_cases hcap : maxPolls ≤ loop.polls + 1
            · rw [if_pos hcap]
              exact inv_consumeLoop st tok loop timeoutUpdater h hloop
                (fun _ => rfl) (fun _ => by simp [timeoutUpdater])
                (fun _ => by simp [timeoutUpdater])
            · rw [if_neg hcap]
              exact inv_updateLoops_mapItem st
                (bumpPolls tok (loop.polls + 1)) hbump loop.fileId
                progressUpdater (fun _ => rfl) (fun _ => rfl) h
      | thrown =>
          by_cases hcap : maxPolls ≤ loop.polls + 1
          · show LoopInv (if maxPolls ≤ loop.polls + 1 then _ else _)
            rw [if_pos hcap]
            exact inv_consumeLoop st tok loop pollFailUpdater h hloop
              (fun _ => rfl) (fun _ => by simp [pollFailUpdater])
              (fun _ => by simp [pollFailUpdater])
          · show LoopInv (if maxPolls ≤ loop.polls + 1 then _ else _)
            rw [if_neg hcap]
            exact inv_updateLoops st (bumpPolls tok (loop.polls + 1)) hbump h

/-- Every event except a Retry press preserves the invariant. -/
theorem inv_step (st : ClientState) (e : CEvent) (h : LoopInv st)
    (he : e.isRetry = false) : LoopInv (step st e) := by
  cases e with
  | add fid => exact inv_addItem st fid h
  | start fid => exact inv_clickStart st fid h
  | retry fid => simp [CEvent.isRetry] at he
  | respond tok resp => exact inv_startRespond st tok resp h
  | fail tok => exact inv_startFail st tok h
  | tick tok out => exact inv_pollTick st tok out h

/-- The invariant is inductive along any Retry-free event trace. -/
theorem inv_runEvents (evs : List CEvent) (st : ClientState)
    (h : LoopInv st) (hall : ∀ e ∈ evs, e.isRetry = false) :
    LoopInv (runEvents st evs) := by
  induction evs generalizing st with
  | nil => exact h
  | cons e evs ih =>
      unfold runEvents
      rw [List.foldl_cons]
      exact ih (step st e) (inv_step st e h (hall e (by simp)))
        (fun e2 h2 => hall e2 (by simp [h2]))


/-- **C2 (amended)**: the at-most-one-active-loop-per-id guarantee holds
only for traces in which new attempts are started exclusively through the
Start button (which is disabled while an item is `starting` or `polling`);
`handleStart` itself cancels nothing — it leaves every existing poll loop
running — so a manual Retry (enabled during polling) can create a second
concurrent attempt for the same id. -/
theorem single_loop_no_retry :
    (∀ evs : List CEvent, (∀ e ∈ evs, e.isRetry = false) →
      ((runEvents initState evs).pollLoops.map (·.fileId)).Nodup ∧
      ((runEvents initState evs).startReqs.map (·.fileId)).Nodup) ∧
    (∀ (st : ClientState) (fid : Int),
      (handleStart st fid).pollLoops = st.pollLoops) := by
  constructor
  · intro evs hall
    have h0 : LoopInv initState := by
      refine ⟨by simp [initState], ?_, by simp [initState], ?_⟩
      · intro l hl
        simp [initState] at hl
      · intro q hq
        simp [initState] at hq
    have h := inv_runEvents evs initState h0 hall
    exact ⟨h.1, h.2.2.1⟩
  · intro st fid
    rfl
/-- Witness for `single_loop_no_retry` on a concrete Retry-free trace. -/
theorem single_loop_no_retry_witness :
    ((runEvents initState [CEvent.add 10000, CEvent.start 10000,
      CEvent.fail 0]).pollLoops.map (·.fileId)).Nodup :=
  (single_loop_no_retry.1 [CEvent.add 10000, CEvent.start 10000,
    CEvent.fail 0] (by decide)).1

/-- **C2 (counterexample)**: a Retry pressed while an item is polling
starts a new attempt without cancelling the prior poll loop; when that
attempt also times out, two interval loops for the same id are live at
once — the claimed cancel-before-start ordering does not hold. -/
theorem two_loops_cex :
    ((runEvents initState [CEvent.add 10000, CEvent.start 10000,
        CEvent.fail 0, CEvent.retry 10000, CEvent.fail 2]).pollLoops.map
      (·.fileId)) = [10000, 10000] ∧
    ¬ ((runEvents initState [CEvent.add 10000, CEvent.start 10000,
        CEvent.fail 0, CEvent.retry 10000, CEvent.fail 2]).pollLoops.map
      (·.fileId)).Nodup := by
  constructor
  · rfl
  · decide

/-- `pollUntilAvailable` marks the tracked item `polling`. -/
theorem pollUntilAvailable_status (st : ClientState) (fid : Int) (it : Item)
    (hfi : findItem st fid = some it) :
    itemStatus (pollUntilAvailable st fid) fid = some .polling :=
  itemStatus_mapItem_self st fid pollingUpdater (fun _ => rfl) it hfi

/-- **C4**: a client-side timeout or transport error on the `start` call
(the rejection of request `tok`) always moves the item to `Polling` —
never directly to `Failed` — and begins a fresh `check`-polling loop. -/
theorem start_error_polls (st : ClientState) (tok : Nat) (req : StartReq)
    (it : Item)
    (hreq : st.startReqs.find? (fun q => q.token == tok) = some req)
    (hfi : findItem st req.fileId = some it) :
    itemStatus (startFail st tok) req.fileId = some .polling ∧
    itemStatus (startFail st tok) req.fileId ≠ some .failed ∧
    (startFail st tok).pollLoops =
      st.pollLoops ++ [⟨req.fileId, st.nextToken, 0⟩] := by
  have hstat : itemStatus (startFail st tok) req.fileId =
      some .polling := by
    unfold startFail
    rw [hreq]
    exact pollUntilAvailable_status _ req.fileId it hfi
  refine ⟨hstat, by rw [hstat]; simp, ?_⟩
  show (startFail st tok).pollLoops = _
  unfold startFail
  rw [hreq]
  rfl
/-- Witness for `start_error_polls` on a concrete state. -/
theorem start_error_polls_witness :
    itemStatus (startFail (runEvents initState
      [CEvent.add 10000, CEvent.start 10000]) 0) 10000 = some .polling :=
  (start_error_polls (runEvents initState
    [CEvent.add 10000, CEvent.start 10000]) 0 ⟨10000, 0⟩
    ⟨10000, .starting, none, 0, 1, none, none, none⟩ rfl rfl).1

/-- **C5**: the Retry button is rendered with `disabled={attempts >= 3}`,
so once an item has 3 recorded attempts a further Retry invocation is a
no-op on the whole client state. -/
theorem retry_disabled_at_cap (st : ClientState) (fid : Int) (it : Item)
    (hfi : findItem st fid = some it)
    (hcap : retryAttemptCap ≤ it.attempts) :
    clickRetry st fid = st := by
  unfold clickRetry
  rw [hfi]
  show (if retryAttemptCap ≤ it.attempts then st
    else handleStart st fid) = st
  rw [if_pos hcap]
/-- Witness for `retry_disabled_at_cap` on an item with 3 attempts. -/
theorem retry_disabled_at_cap_witness :
    clickRetry ⟨[⟨10000, .failed, none, 0, 3, none, none, none⟩], [], [], 5⟩
        10000 =
      ⟨[⟨10000, .failed, none, 0, 3, none, none, none⟩], [], [], 5⟩ :=
  retry_disabled_at_cap _ 10000
    ⟨10000, .failed, none, 0, 3, none, none, none⟩ rfl (by decide)

/-- **C10 (amended)**: `handleStart` increments the per-item `attempts`
counter on every invocation, the very first Start included, and the cap of
3 disables the Retry button after 3 recorded attempts; the Start button
itself, however, is not gated on `attempts`, so the cap bounds only the
attempts reachable via Retry, not the total number of start invocations. -/
theorem attempts_counts_every_start :
    (∀ (st : ClientState) (fid : Int) (it : Item),
      findItem st fid = some it →
      itemAttempts (handleStart st fid) fid = some (it.attempts + 1)) ∧
    (∀ (st : ClientState) (fid : Int) (it : Item),
      findItem st fid = some it → retryAttemptCap ≤ it.attempts →
      clickRetry st fid = st) := by
  constructor
  · intro st fid it hfi
    exact itemAttempts_mapItem_self st fid startingUpdater (fun _ => rfl)
      it hfi
  · intro st fid it hfi hcap
    unfold clickRetry
    rw [hfi]
    show (if retryAttemptCap ≤ it.attempts then st
      else handleStart st fid) = st
    rw [if_pos hcap]
/-- Witness for `attempts_counts_every_start`: the very first Start. -/
theorem attempts_counts_every_start_witness :
    itemAttempts (handleStart (runEvents initState [CEvent.add 10000])
      10000) 10000 = some 1 :=
  attempts_counts_every_start.1 (runEvents initState [CEvent.add 10000])
    10000 ⟨10000, .idle, none, 0, 0, none, none, none⟩ rfl

/-- **C10 (counterexample)**: the Start button is re-enabled whenever an
item is in a terminal `failed` state, regardless of `attempts`, so a
fourth start invocation is reachable — the cap of 3 does not bound the
total number of start invocations per item. -/
theorem four_starts_cex :
    itemAttempts (runEvents initState [CEvent.add 10000,
      CEvent.start 10000, CEvent.respond 0 ⟨.failed, none, none, none⟩,
      CEvent.start 10000, CEvent.respond 1 ⟨.failed, none, none, none⟩,
      CEvent.start 10000, CEvent.respond 2 ⟨.failed, none, none, none⟩,
      CEvent.start 10000]) 10000 = some 4 ∧
    ¬ (4 ≤ retryAttemptCap) := by
  constructor
  · rfl
  · decide


/-- A tick of a cleared interval is a no-op: the callback never runs and
no `check` call fires. -/
theorem pollTick_cleared (st : ClientState) (tok : Nat) (o : TickOutcome)
    (h : st.pollLoops.find? (fun p => p.token == tok) = none) :
    pollTick st tok o = st := by
  unfold pollTick
  rw [h]

/-- The cap-reaching tick of a loop: with no available result, the item
becomes `failed` with the branch-determined message and the interval is
cleared. -/
theorem pollTick_cap (st : ClientState) (tok : Nat) (fid : Int)
    (polls : Nat) (o : TickOutcome) (it : Item)
    (hloop : st.pollLoops.find? (fun p => p.token == tok) =
      some ⟨fid, tok, polls⟩)
    (hfi : findItem st fid = some it)
    (hnav : tickIsAvailable o = false)
    (hcap : maxPolls ≤ polls + 1) :
    itemStatus (pollTick st tok o) fid = some .failed ∧
    itemMessage (pollTick st tok o) fid = some (capFailureMessage o) ∧
    (pollTick st tok o).pollLoops.find? (fun p => p.token == tok) =
      none := by
  cases o with
  | ok res =>
      have hres : ¬ res.available = true := by
        simp only [tickIsAvailable] at hnav
        simp [hnav]
      unfold pollTick
      rw [hloop]
      dsimp only
      rw [if_neg hres, if_pos hcap]
      refine ⟨?_, ?_, ?_⟩
      · exact itemStatus_mapItem_self _ fid timeoutUpdater (fun _ => rfl)
          it hfi
      · exact itemMessage_mapItem_self _ fid timeoutUpdater (fun _ => rfl)
          it hfi
      · exact find?_filter_not _ _
  | thrown =>
      unfold pollTick
      rw [hloop]
      dsimp only
      rw [if_pos hcap]
      refine ⟨?_, ?_, ?_⟩
      · exact itemStatus_mapItem_self _ fid pollFailUpdater (fun _ => rfl)
          it hfi
      · exact itemMessage_mapItem_self _ fid pollFailUpdater (fun _ => rfl)
          it hfi
      · exact find?_filter_not _ _

/-- A non-final unavailable tick keeps the loop alive with its counter
bumped, and keeps the item tracked. -/
theorem pollTick_keep (st : ClientState) (tok : Nat) (fid : Int)
    (polls : Nat) (o : TickOutcome) (it : Item)
    (hloop : st.pollLoops.find? (fun p => p.token == tok) =
      some ⟨fid, tok, polls⟩)
    (hfi : findItem st fid = some it)
    (hnav : tickIsAvailable o = false)
    (hncap : ¬ maxPolls ≤ polls + 1) :
    (pollTick st tok o).pollLoops.find? (fun p => p.token == tok) =
      some ⟨fid, tok, polls + 1⟩ ∧
    (∃ it2, findItem (pollTick st tok o) fid = some it2) := by
  have hfind : (st.pollLoops.map (bumpPolls tok (polls + 1))).find?
      (fun p => p.token == tok) = some ⟨fid, tok, polls + 1⟩ := by
    rw [find_map_comm (fun p => p.token == tok) (bumpPolls tok (polls + 1))
      (fun p => by unfold bumpPolls; split <;> rfl) st.pollLoops, hloop]
    show some (bumpPolls tok (polls + 1) ⟨fid, tok, polls⟩) = _
    unfold bumpPolls
    simp
  cases o with
  | ok res =>
      have hres : ¬ res.available = true := by
        simp only [tickIsAvailable] at hnav
        simp [hnav]
      unfold pollTick
      rw [hloop]
      dsimp only
      rw [if_neg hres, if_neg hncap]
      constructor
      · exact hfind
      · have hfi2 : findItem
            { st with
              pollLoops := st.pollLoops.map (bumpPolls tok (polls + 1)) }
            fid = some it := hfi
        refine ⟨(if it.fileId == fid then progressUpdater it else it), ?_⟩
        rw [findItem_mapItem _ fid fid progressUpdater (fun _ => rfl), hfi2]
        rfl
  | thrown =>
      unfold pollTick
      rw [hloop]
      dsimp only
      rw [if_neg hncap]
      exact ⟨hfind, ⟨it, hfi⟩⟩

/-- Driving a live loop with `polls` ticks already consumed through the
remaining ticks, none ever available: at the cap the item is `failed` with
the message of the last tick, the interval is cleared, and every later
tick is a no-op. -/
theorem pollTick_cap_aux (fid : Int) (tok : Nat) :
    ∀ (outs : List TickOutcome) (st : ClientState) (polls : Nat)
      (oLast : TickOutcome),
      st.pollLoops.find? (fun p => p.token == tok) =
        some ⟨fid, tok, polls⟩ →
      (∃ it, findItem st fid = some it) →
      polls + outs.length = maxPolls →
      outs.getLast? = some oLast →
      (∀ o ∈ outs, tickIsAvailable o = false) →
      itemStatus (outs.foldl (fun s o => pollTick s tok o) st) fid =
          some .failed ∧
      itemMessage (outs.foldl (fun s o => pollTick s tok o) st) fid =
          some (capFailureMessage oLast) ∧
      (outs.foldl (fun s o => pollTick s tok o) st).pollLoops.find?
          (fun p => p.token == tok) = none ∧
      ∀ o2, pollTick (outs.foldl (fun s o => pollTick s tok o) st) tok o2 =
          outs.foldl (fun s o => pollTick s tok o) st := by
  intro outs
  induction outs with
  | nil =>
      intro st polls oLast hloop hit hlen hlast hnone
      simp at hlast
  | cons o rest ih =>
      intro st polls oLast hloop hit hlen hlast hnone
      obtain ⟨it, hfi⟩ := hit
      simp only [List.foldl_cons]
      have hnav : tickIsAvailable o = false :=
        hnone o (List.mem_cons_self o rest)
      cases rest with
      | nil =>
          simp only [List.foldl_nil]
          have hcap : maxPolls ≤ polls + 1 := by
            simp only [List.length_cons, List.length_nil] at hlen
            omega
          have holast : o = oLast := by simpa using hlast
          subst holast
          have hres := pollTick_cap st tok fid polls o it hloop hfi hnav
            hcap
          exact ⟨hres.1, hres.2.1, hres.2.2,
            fun o2 => pollTick_cleared _ tok o2 hres.2.2⟩
      | cons o2 rest2 =>
          have hncap : ¬ maxPolls ≤ polls + 1 := by
            simp only [List.length_cons] at hlen
            omega
          have hkeep := pollTick_keep st tok fid polls o it hloop hfi hnav
            hncap
          rw [List.getLast?_cons_cons] at hlast
          have hlen2 : (polls + 1) + (o2 :: rest2).length = maxPolls := by
            simp only [List.length_cons] at hlen ⊢
            omega
          have hnone2 : ∀ o3 ∈ o2 :: rest2, tickIsAvailable o3 = false :=
            fun o3 h3 => hnone o3 (List.mem_cons_of_mem o h3)
          exact ih (pollTick st tok o) (polls + 1) oLast hkeep.1 hkeep.2
            hlen2 hlast hnone2

/-- **C3 (amended)**: when a polling loop runs through its full cap of
36 ticks (at the fixed 5-second interval) without the check ever being
available, the item ends `Failed` and the interval is stopped, with no
further `check` calls for that loop; the terminal message is
"Timed out waiting for availability" when the cap-reaching tick received
an unavailable result, but "Polling failed" when that tick's `check`
threw. -/
theorem poll_cap_terminates (st : ClientState) (fid : Int) (tok : Nat)
    (outs : List TickOutcome) (oLast : TickOutcome)
    (hloop : st.pollLoops.find? (fun p => p.token == tok) =
      some ⟨fid, tok, 0⟩)
    (hit : ∃ it, findItem st fid = some it)
    (hlen : outs.length = maxPolls)
    (hlast : outs.getLast? = some oLast)
    (hnone : ∀ o ∈ outs, tickIsAvailable o = false) :
    itemStatus (outs.foldl (fun s o => pollTick s tok o) st) fid =
        some .failed ∧
    itemMessage (outs.foldl (fun s o => pollTick s tok o) st) fid =
        some (capFailureMessage oLast) ∧
    (outs.foldl (fun s o => pollTick s tok o) st).pollLoops.find?
        (fun p => p.token == tok) = none ∧
    (∀ o2, pollTick (outs.foldl (fun s o => pollTick s tok o) st) tok o2 =
        outs.foldl (fun s o => pollTick s tok o) st) ∧
    maxPolls = 36 ∧ DEFAULT_POLL_INTERVAL = 5000 := by
  have h := pollTick_cap_aux fid tok outs st 0 oLast hloop hit
    (by omega) hlast hnone
  exact ⟨h.1, h.2.1, h.2.2.1, h.2.2.2, rfl, rfl⟩
/-- Witness for `poll_cap_terminates`: a loop fed 36 unavailable
results. -/
theorem poll_cap_terminates_witness :
    itemStatus ((List.replicate 36
        (TickOutcome.ok ⟨10000, false, none, none⟩)).foldl
        (fun s o => pollTick s 1 o)
        (runEvents initState [CEvent.add 10000, CEvent.start 10000,
          CEvent.fail 0])) 10000 = some .failed :=
  (poll_cap_terminates (runEvents initState [CEvent.add 10000,
      CEvent.start 10000, CEvent.fail 0]) 10000 1
    (List.replicate 36 (TickOutcome.ok ⟨10000, false, none, none⟩))
    (TickOutcome.ok ⟨10000, false, none, none⟩) rfl ⟨_, rfl⟩ rfl
    (by decide) (by decide)).1

/-- **C3 (counterexample)**: a loop whose 36 ticks all threw reaches the
cap without the result ever being available, and ends `Failed` with the
message "Polling failed" — not "Timed out waiting for availability" as
claimed. -/
theorem poll_cap_message_cex :
    itemStatus (runEvents initState ([CEvent.add 10000,
        CEvent.start 10000, CEvent.fail 0] ++
        List.replicate 36 (CEvent.tick 1 .thrown))) 10000 =
      some .failed ∧
    itemMessage (runEvents initState ([CEvent.add 10000,
        CEvent.start 10000, CEvent.fail 0] ++
        List.replicate 36 (CEvent.tick 1 .thrown))) 10000 =
      some "Polling failed" ∧
    "Polling failed" ≠ timeoutMessage := by
  refine ⟨rfl, rfl, by decide⟩

end Hackathon
